import Mathlib

/-!
Verification development for the outbound-messaging relay
(`src/web/src/app/api/trigger/route.ts` and the client composer).

The TypeScript source is shallowly embedded:
* JSON values become the inductive `Json`;
* the zod schemas `inboundSchema` (server) and `payloadSchema` (client)
  become `inboundSafeParse` and `payloadSafeParse`, returning either the
  normalized `Payload` or the ordered list of issue messages, exactly as
  `schema.safeParse(x).error.issues.map(i => i.message)` would;
* the route handler `POST` becomes `handlePOST`, a pure function of the
  configuration, the parsed request body, the caller Origin header, the
  current time and the downstream behaviour, returning the HTTP-level
  response together with the list of outbound calls performed;
* the JS builtins `new URL` (used by `z.string().url()`) and `Date.parse`
  (used by the `sendAt` refinement) are abstracted as boolean predicates
  `urlOk` and `dateOk` passed to every definition that needs them; the
  date-fns normalizer `formatISO(parseISO v)` is abstracted as
  `isoNorm : String → Option String` (`none` = it threw).
-/

/-- JSON values as produced by `JSON.parse` / consumed by `JSON.stringify`.
Numbers are modelled as integers (no claim depends on fractional values).
Object field lists are in insertion order with distinct keys, as
`JSON.parse` produces. -/
inductive Json where
  | null
  | bool (b : Bool)
  | num (n : Int)
  | str (s : String)
  | arr (elems : List Json)
  | obj (fields : List (String × Json))

/-- Name zod reports for the parsed type of a value (`getParsedType`). -/
def typeName : Json → String
  | .null => "null"
  | .bool _ => "boolean"
  | .num _ => "number"
  | .str _ => "string"
  | .arr _ => "array"
  | .obj _ => "object"

/-- Default zod `invalid_type` message, e.g. `Expected string, received number`. -/
def expectedMsg (exp : String) (v : Json) : String :=
  "Expected " ++ exp ++ ", received " ++ typeName v

mutual

/-- JS `String(x)` coercion, restricted to JSON-representable values:
primitives print themselves, arrays join their elements with commas
(`null` elements print as the empty string, as `Array.prototype.join`
does), plain objects print as `[object Object]`. -/
def jsToString : Json → String
  | .null => "null"
  | .bool true => "true"
  | .bool false => "false"
  | .num n => toString n
  | .str s => s
  | .arr xs => jsArrToString xs
  | .obj _ => "[object Object]"

/-- Comma-join of `String(...)` of array elements (`Array.prototype.toString`). -/
def jsArrToString : List Json → String
  | [] => ""
  | [x] => jsElemToString x
  | x :: y :: rest => jsElemToString x ++ "," ++ jsArrToString (y :: rest)

/-- Inside `Array.prototype.join`, `null` renders as the empty string. -/
def jsElemToString : Json → String
  | .null => ""
  | .bool b => jsToString (.bool b)
  | .num n => jsToString (.num n)
  | .str s => jsToString (.str s)
  | .arr xs => jsToString (.arr xs)
  | .obj fs => jsToString (.obj fs)

end

/-- Whitespace characters removed by JS `String.prototype.trim`
(the ASCII subset actually occurring in form input). -/
def isJsWS (c : Char) : Bool :=
  c == ' ' || c == '\t' || c == '\n' || c == '\r' || c.val == 11 || c.val == 12

/-- List-level trim: drop leading and trailing whitespace. -/
def jsTrimList (cs : List Char) : List Char :=
  (cs.dropWhile isJsWS).rdropWhile isJsWS

/-- JS `String.prototype.trim` (also what `z.string().trim()` applies). -/
def jsTrim (s : String) : String :=
  String.mk (jsTrimList s.data)

/-- Test of the anchored JS regex `^\d{6,15}$`: only ASCII digits,
between 6 and 15 of them. -/
def isDigits615 (s : String) : Bool :=
  6 ≤ s.length && s.length ≤ 15 && s.data.all Char.isDigit

/-- Separator class of the split regex `[\n,]+`. -/
def isSep (c : Char) : Bool :=
  c == '\n' || c == ','

/-- Core of `value.split(/[\n,]+/)`: a run of separators ends the current
token; runs are collapsed, so empties appear only at the borders.  `acc`
holds the current token reversed; `inSep` records that we are inside a
separator run (the preceding token is already emitted, and a token —
possibly empty — still follows the run). -/
def splitSepsAux : List Char → List Char → Bool → List String
  | [], acc, false => [String.mk acc.reverse]
  | [], _, true => [""]
  | c :: rest, acc, false =>
    if isSep c then String.mk acc.reverse :: splitSepsAux rest [] true
    else splitSepsAux rest (c :: acc) false
  | c :: rest, acc, true =>
    if isSep c then splitSepsAux rest acc true
    else splitSepsAux rest [c] false

/-- JS `value.split(/[\n,]+/)`. -/
def jsSplitSeps (s : String) : List String :=
  splitSepsAux s.data [] false

/-- Issue messages carried by a failed parse (empty for a success). -/
def exceptErrs {α : Type} : Except (List String) α → List String
  | .error es => es
  | .ok _ => []

/-- The normalized request shape shared by both validators: the output
type of `payloadSchema` (client) and `inboundSchema` (server). -/
structure Payload where
  workflowTag : String
  recipients : List String
  message : String
  mediaUrl : Option String
  workflowVars : Option (List (String × String))
  sendAt : Option String
deriving DecidableEq

/-- First-match field lookup in a JSON object (keys are distinct in
objects coming out of `JSON.parse`, so first match is the match). -/
def getField (fields : List (String × Json)) (k : String) : Option Json :=
  match fields with
  | [] => none
  | kv :: rest => if kv.1 == k then some kv.2 else getField rest k

/-!  Field validators.  Each mirrors one zod field schema, returning the
normalized value or the ordered issue messages it contributes. -/

/-- Zod `z.string().trim().min(1, msg)` applied to a string: trim first,
then the length check, exactly in check order. -/
def parseTrimmedRequired (msg : String) (s : String) : Except (List String) String :=
  let t := jsTrim s
  if t.length < 1 then .error [msg] else .ok t

/-- Server-side required trimmed string field: the JSON value must be a
string (`Required` when the key is absent, a type error otherwise),
then `parseTrimmedRequired` applies. -/
def parseTrimmedRequiredJson (msg : String) (oj : Option Json) : Except (List String) String :=
  match oj with
  | none => .error ["Required"]
  | some (.str s) => parseTrimmedRequired msg s
  | some v => .error [expectedMsg "string" v]

/-- Element schema of `inboundSchema.recipients`:
`z.string().trim().regex(^\d{6,15}$, ...)` on a JSON value. -/
def parseRecipient (j : Json) : Except (List String) String :=
  match j with
  | .str s =>
    let t := jsTrim s
    if isDigits615 t then .ok t
    else .error ["Recipients must be numeric in international format"]
  | v => .error [expectedMsg "string" v]

/-- Parse every element of the recipients array, collecting all issue
messages in element order. -/
def parseRecipientList : List Json → Except (List String) (List String)
  | [] => .ok []
  | j :: rest =>
    match parseRecipient j, parseRecipientList rest with
    | .ok s, .ok ss => .ok (s :: ss)
    | r1, r2 => .error (exceptErrs r1 ++ exceptErrs r2)

/-- Server-side `recipients` field: a required array, the `.min(1)` length
issue first (zod checks array length before parsing elements), then the
per-element issues. -/
def parseRecipients (oj : Option Json) : Except (List String) (List String) :=
  match oj with
  | none => .error ["Required"]
  | some (.arr xs) =>
    let minErr : List String :=
      if xs.length < 1 then ["Provide at least one recipient"] else []
    match parseRecipientList xs with
    | .ok ss => if minErr.isEmpty then .ok ss else .error minErr
    | .error es => .error (minErr ++ es)
  | some v => .error [expectedMsg "array" v]

/-- Server-side `mediaUrl` field: `z.string().url().optional()` — absent
is fine, otherwise the string must satisfy the `new URL` test; note there
is no empty-string escape here (unlike the client schema). -/
def parseMediaUrlServer (urlOk : String → Bool) (oj : Option Json) :
    Except (List String) (Option String) :=
  match oj with
  | none => .ok none
  | some (.str s) => if urlOk s then .ok (some s) else .error ["Invalid url"]
  | some v => .error [expectedMsg "string" v]

/-- Client-side `mediaUrl` field:
`z.string().url("Must be a valid URL").optional().or(z.literal(""))` — a
union, so the empty string is accepted verbatim; when both branches fail
zod reports the default `invalid_union` message `Invalid input`. -/
def parseMediaUrlClient (urlOk : String → Bool) (v : Option String) :
    Except (List String) (Option String) :=
  match v with
  | none => .ok none
  | some s =>
    if urlOk s then .ok (some s)
    else if s == "" then .ok (some "")
    else .error ["Invalid input"]

/-- One `workflowVars` entry under the server schema
`z.record(z.string(), z.string())`: the value must already be a string —
no coercion happens here. -/
def parseVarPair (kv : String × Json) : Except (List String) (String × String) :=
  match kv with
  | (k, .str s) => .ok (k, s)
  | (_, v) => .error [expectedMsg "string" v]

/-- All `workflowVars` entries, collecting issues in entry order. -/
def parseVarList : List (String × Json) → Except (List String) (List (String × String))
  | [] => .ok []
  | kv :: rest =>
    match parseVarPair kv, parseVarList rest with
    | .ok p, .ok ps => .ok (p :: ps)
    | r1, r2 => .error (exceptErrs r1 ++ exceptErrs r2)

/-- Server-side `workflowVars` field:
`z.record(z.string(), z.string()).optional()` — absent is fine; a JSON
array or primitive is an `Expected object, received ...` type error;
an object is accepted only when every value is already a string. -/
def parseWorkflowVarsServer (oj : Option Json) :
    Except (List String) (Option (List (String × String))) :=
  match oj with
  | none => .ok none
  | some (.obj kvs) =>
    match parseVarList kvs with
    | .ok ps => .ok (some ps)
    | .error es => .error es
  | some v => .error [expectedMsg "object" v]

/-- The `sendAt` refinement `(value) => !value || !Number.isNaN(Date.parse(value))`:
absent or empty is fine, otherwise `Date.parse` must succeed. -/
def sendAtRefineOk (dateOk : String → Bool) (v : Option String) : Bool :=
  match v with
  | none => true
  | some s => s == "" || dateOk s

/-- Server-side `sendAt` field: `z.string().optional().refine(...)`. -/
def parseSendAtServer (dateOk : String → Bool) (oj : Option Json) :
    Except (List String) (Option String) :=
  match oj with
  | none => .ok none
  | some (.str s) =>
    if sendAtRefineOk dateOk (some s) then .ok (some s)
    else .error ["sendAt must be a valid ISO 8601 date string"]
  | some v => .error [expectedMsg "string" v]

/-- Client-side `sendAt` field: same refinement, client issue message. -/
def parseSendAtClient (dateOk : String → Bool) (v : Option String) :
    Except (List String) (Option String) :=
  match v with
  | none => .ok none
  | some s =>
    if sendAtRefineOk dateOk (some s) then .ok (some s)
    else .error ["Send at must be a valid ISO date"]

/-- Client-side `recipients` field: a required raw string, trimmed, then
`.transform` splits it on `[\n,]+`, trims each entry and filters out the
falsy (empty) ones.  No digit-pattern check exists on this side. -/
def parseRecipientsClient (raw : String) : Except (List String) (List String) :=
  let t := jsTrim raw
  if t.length < 1 then .error ["At least one recipient is required"]
  else .ok (((jsSplitSeps t).map jsTrim).filter (fun e => e != ""))

/-- Input shape of `payloadSchema.safeParse` as the composer builds it in
`handleSubmit`: raw strings for the text fields, the already-parsed
variables record, and the normalized optional date. -/
structure DraftInput where
  workflowTag : String
  recipients : String
  message : String
  mediaUrl : Option String
  workflowVars : Option (List (String × String))
  sendAt : Option String
deriving DecidableEq

/-- Client validator `payloadSchema.safeParse`: each field parsed
independently, issues collected in field-definition order (workflowTag,
recipients, message, mediaUrl, workflowVars, sendAt).  `workflowVars` is
`z.record(z.string(), z.string()).optional()` over an input that is
already `Record<string, string> | undefined`, so it always succeeds. -/
def payloadSafeParse (urlOk dateOk : String → Bool) (d : DraftInput) :
    Except (List String) Payload :=
  let rTag := parseTrimmedRequired "Workflow tag is required" d.workflowTag
  let rRec := parseRecipientsClient d.recipients
  let rMsg := parseTrimmedRequired "A message body is required" d.message
  let rMedia := parseMediaUrlClient urlOk d.mediaUrl
  let rVars : Except (List String) (Option (List (String × String))) := .ok d.workflowVars
  let rSend := parseSendAtClient dateOk d.sendAt
  match rTag, rRec, rMsg, rMedia, rVars, rSend with
  | .ok a, .ok b, .ok c, .ok m, .ok v, .ok t => .ok ⟨a, b, c, m, v, t⟩
  | t1, t2, t3, t4, t5, t6 =>
    .error (exceptErrs t1 ++ exceptErrs t2 ++ exceptErrs t3 ++
            exceptErrs t4 ++ exceptErrs t5 ++ exceptErrs t6)

/-- Server validator `inboundSchema.safeParse` on an arbitrary JSON body:
the body must be an object; the six declared fields are parsed in
definition order (all issues collected) and every unrecognized key is
dropped. -/
def inboundSafeParse (urlOk dateOk : String → Bool) (j : Json) :
    Except (List String) Payload :=
  match j with
  | .obj fields =>
    let rTag := parseTrimmedRequiredJson "workflowTag is required" (getField fields "workflowTag")
    let rRec := parseRecipients (getField fields "recipients")
    let rMsg := parseTrimmedRequiredJson "message is required" (getField fields "message")
    let rMedia := parseMediaUrlServer urlOk (getField fields "mediaUrl")
    let rVars := parseWorkflowVarsServer (getField fields "workflowVars")
    let rSend := parseSendAtServer dateOk (getField fields "sendAt")
    match rTag, rRec, rMsg, rMedia, rVars, rSend with
    | .ok a, .ok b, .ok c, .ok m, .ok v, .ok t => .ok ⟨a, b, c, m, v, t⟩
    | t1, t2, t3, t4, t5, t6 =>
      .error (exceptErrs t1 ++ exceptErrs t2 ++ exceptErrs t3 ++
              exceptErrs t4 ++ exceptErrs t5 ++ exceptErrs t6)
  | v => .error [expectedMsg "object" v]

/-!  Client composer helpers (`src/unnamed/part_000`). -/

/-- Result type of `tryParseWorkflowVars`. -/
inductive VarsResult where
  | ok (value : Option (List (String × String)))
  | err (message : String)
deriving DecidableEq

/-- Shape test `parsed && typeof parsed === "object" && !Array.isArray(parsed)`:
true exactly for plain JSON objects (null is falsy, arrays are excluded,
primitives are not of object type). -/
def isPlainObject : Json → Bool
  | .obj _ => true
  | _ => false

/-- The composer function `tryParseWorkflowVars(input)`.  The result of
the external `JSON.parse(input)` is supplied as `parsed`
(`.error m` models a throw with message `m`).  A blank input yields
`ok` with no value; a parse failure is reported; a non-object shape is
rejected; an object has each value coerced with `String(...)` via
`Object.entries(...).reduce`. -/
def tryParseWorkflowVars (input : String) (parsed : Except String Json) : VarsResult :=
  if jsTrim input == "" then .ok none
  else
    match parsed with
    | .error m => .err ("Invalid workflow variables JSON: " ++ m)
    | .ok j =>
      if isPlainObject j then
        match j with
        | .obj kvs => .ok (some (kvs.map (fun kv => (kv.1, jsToString kv.2))))
        | _ => .err "Workflow variables must be a JSON object."
      else .err "Workflow variables must be a JSON object."

/-- The composer function `normalizeDateField(value)`: a falsy (empty)
value becomes `undefined`; otherwise `formatISO(parseISO(value))` is
attempted (`isoNorm`, `none` = it threw) and on failure the raw value is
passed through unchanged. -/
def normalizeDateField (isoNorm : String → Option String) (value : String) : Option String :=
  if value == "" then none
  else
    match isoNorm value with
    | some iso => some iso
    | none => some value

/-- Raw values of the six form fields, all plain strings. -/
structure FormFields where
  workflowTag : String
  recipients : String
  message : String
  mediaUrl : String
  sendAt : String
  workflowVars : String
deriving DecidableEq

/-- Outcome of the client-side validation phase of `handleSubmit`. -/
inductive ClientOutcome where
  | varsError (message : String)
  | invalid (issues : List String)
  | accepted (p : Payload)
deriving DecidableEq

/-- The validation pipeline of `handleSubmit`: parse the free-form
variables blob first (its failure short-circuits with a lone message),
then run `payloadSchema.safeParse` over the draft with `sendAt`
normalized by `normalizeDateField`. -/
def clientPipeline (urlOk dateOk : String → Bool) (isoNorm : String → Option String)
    (parsedVars : Except String Json) (form : FormFields) : ClientOutcome :=
  match tryParseWorkflowVars form.workflowVars parsedVars with
  | .err m => .varsError m
  | .ok vars =>
    match payloadSafeParse urlOk dateOk
        ⟨form.workflowTag, form.recipients, form.message, some form.mediaUrl,
         vars, normalizeDateField isoNorm form.sendAt⟩ with
    | .error issues => .invalid issues
    | .ok p => .accepted p

/-!  Relay endpoint (`src/web/src/app/api/trigger/route.ts`). -/

/-- Body fields of `JSON.stringify` applied to a parsed payload object:
keys in insertion order, `undefined` (absent) optional fields dropped. -/
def bodyFields (tag : String) (recips : List String) (msg : String)
    (media : Option String) (vars : Option (List (String × String)))
    (send : Option String) : List (String × Json) :=
  [("workflowTag", Json.str tag),
   ("recipients", Json.arr (recips.map Json.str)),
   ("message", Json.str msg)]
  ++ (match media with
      | some s => [("mediaUrl", Json.str s)]
      | none => [])
  ++ (match vars with
      | some kvs => [("workflowVars", Json.obj (kvs.map (fun kv => (kv.1, Json.str kv.2))))]
      | none => [])
  ++ (match send with
      | some s => [("sendAt", Json.str s)]
      | none => [])

/-- JSON serialization of a validated payload, as the composer sends it
to `/api/trigger` (`JSON.stringify(parsed.data)`). -/
def payloadToJson (p : Payload) : Json :=
  Json.obj (bodyFields p.workflowTag p.recipients p.message p.mediaUrl p.workflowVars p.sendAt)

/-- The enriched body the relay posts downstream:
`{...parsed.data, requestedAt: new Date().toISOString(), origin: request.headers.get("origin") ?? undefined}`
serialized by `JSON.stringify` (so an absent origin key is dropped). -/
def forwardedJson (p : Payload) (now : String) (origin : Option String) : Json :=
  Json.obj (bodyFields p.workflowTag p.recipients p.message p.mediaUrl p.workflowVars p.sendAt
    ++ [("requestedAt", Json.str now)]
    ++ (match origin with
        | some o => [("origin", Json.str o)]
        | none => []))

/-- Headers of the outbound fetch: always `Content-Type`, plus the
API-key header when the credential is configured. -/
def mkHeaders (apiKey : Option String) : List (String × String) :=
  ("Content-Type", "application/json")
  :: (match apiKey with
      | some k => [("X-N8N-API-KEY", k)]
      | none => [])

/-- One outbound `fetch` to the downstream webhook. -/
structure OutboundCall where
  url : String
  headers : List (String × String)
  body : Json

/-- Behaviour of the downstream endpoint for this request: it answers
with a status, raw body text and best-effort parsed JSON body
(`safeJson`, `none` when unparseable), or the transport throws. -/
inductive Downstream where
  | responds (status : Nat) (bodyText : String) (bodyJson : Option Json)
  | throws (message : String)

/-- Result of `await request.json()`: a JSON value, or a throw whose
stringified error is `errText`. -/
inductive RequestBody where
  | json (j : Json)
  | malformed (errText : String)

/-- The JSON body the route returns, with its HTTP status.  `issues` is
`none` when the `issues` key is absent from the response object. -/
structure ApiResponse where
  status : Nat
  message : String
  issues : Option (List String)
  n8nResponse : Option Json

/-- The route handler `POST` as a function of its inputs: configuration
(`webhookUrl`, `apiKey` from the environment), the parsed request body,
the caller Origin header, the current time `now`, and the downstream
behaviour.  Returns the response plus the list of outbound calls issued
(`fetch` is recorded even when it subsequently throws). -/
def handlePOST (urlOk dateOk : String → Bool) (webhookUrl apiKey : Option String)
    (body : RequestBody) (originHeader : Option String) (now : String)
    (downstream : Downstream) : ApiResponse × List OutboundCall :=
  match webhookUrl with
  | none =>
    (⟨500,
      "N8N_WEBHOOK_URL is not configured. Set it in your Vercel project environment variables.",
      none, none⟩, [])
  | some url =>
    match body with
    | .malformed e => (⟨400, "Invalid JSON payload", some [e], none⟩, [])
    | .json j =>
      match inboundSafeParse urlOk dateOk j with
      | .error issues => (⟨422, "Validation failed", some issues, none⟩, [])
      | .ok p =>
        let call : OutboundCall := ⟨url, mkHeaders apiKey, forwardedJson p now originHeader⟩
        match downstream with
        | .throws m =>
          (⟨504, "Failed to communicate with n8n webhook.", some [m], none⟩, [call])
        | .responds st text js =>
          if 200 ≤ st ∧ st ≤ 299 then
            (⟨200, "Workflow dispatched to n8n.", none, js⟩, [call])
          else
            (⟨502, "n8n responded with status " ++ toString st,
              if text == "" then none else some [text], none⟩, [call])

/-- Keys of a JSON object (empty for non-objects). -/
def jsonKeys : Json → List String
  | .obj fs => fs.map Prod.fst
  | _ => []

/-- Lookup on a JSON object (none for non-objects). -/
def jsonGet (j : Json) (k : String) : Option Json :=
  match j with
  | .obj fs => getField fs k
  | _ => none

/-- The six keys `inboundSchema` declares; everything else is stripped. -/
def schemaKeys : List String :=
  ["workflowTag", "recipients", "message", "mediaUrl", "workflowVars", "sendAt"]

/-- Success test for an `Except`. -/
def exceptIsOk {α : Type} : Except (List String) α → Bool
  | .ok _ => true
  | .error _ => false

/-!  Helper lemmas. -/

/-- Dropping leading whitespace twice is the same as once, even with an
`rdropWhile` in between: the head of the right-trimmed list is still the
head of the left-trimmed list. -/
theorem dropWhile_rdropWhile_self {α : Type} (p : α → Bool) (l : List α) :
    ((l.dropWhile p).rdropWhile p).dropWhile p = (l.dropWhile p).rdropWhile p := by
  rcases hB : (l.dropWhile p).rdropWhile p with _ | ⟨b, bs⟩
  · simp
  · obtain ⟨t, ht⟩ := List.rdropWhile_prefix p (l.dropWhile p)
    rw [hB] at ht
    have hA : l.dropWhile p = b :: (bs ++ t) := by rw [← ht]; simp
    have hid := List.dropWhile_idempotent p l
    rw [hA] at hid
    have hb : p b = false := by
      by_cases hpb : p b
      · exfalso
        rw [List.dropWhile_cons, if_pos hpb] at hid
        have hlen := congrArg List.length hid
        have hle := (List.dropWhile_suffix (l := bs ++ t) p).length_le
        rw [List.length_cons] at hlen
        omega
      · simpa using hpb
    simp [List.dropWhile_cons, hb]

/-- Trimming is idempotent at the character-list level. -/
theorem jsTrimList_idem (cs : List Char) : jsTrimList (jsTrimList cs) = jsTrimList cs := by
  unfold jsTrimList
  rw [show (((cs.dropWhile isJsWS).rdropWhile isJsWS).dropWhile isJsWS)
        = (cs.dropWhile isJsWS).rdropWhile isJsWS from dropWhile_rdropWhile_self isJsWS cs]
  exact List.rdropWhile_idempotent isJsWS _

/-- JS `trim` is idempotent. -/
theorem jsTrim_idem (s : String) : jsTrim (jsTrim s) = jsTrim s := by
  show String.mk (jsTrimList (jsTrimList s.data)) = String.mk (jsTrimList s.data)
  rw [jsTrimList_idem]

/-- The zod length check `length < 1` holds exactly for the empty string. -/
theorem strLen_lt_one_iff (s : String) : s.length < 1 ↔ s = "" := by
  cases s with
  | mk l =>
    constructor
    · intro h
      have hl : l = [] := List.length_eq_zero.mp (Nat.lt_one_iff.mp h)
      subst hl
      rfl
    · intro h
      have hl : l = [] := by
        have : (String.mk l).data = ("" : String).data := by rw [h]
        simpa using this
      simp [String.length, hl]

/-- Looking a key up past appended fields whose keys all differ from it. -/
theorem getField_append_of_ne (fields extra : List (String × Json)) (k : String)
    (h : ∀ kv ∈ extra, kv.1 ≠ k) : getField (fields ++ extra) k = getField fields k := by
  induction fields with
  | nil =>
    simp only [List.nil_append]
    induction extra with
    | nil => rfl
    | cons kv rest ih =>
      have hk : (kv.1 == k) = false := by
        simp only [beq_eq_false_iff_ne]
        exact h kv (by simp)
      simp only [getField, hk, Bool.false_eq_true, if_false]
      exact ih (fun kv2 hm => h kv2 (by simp [hm]))
  | cons kv rest ih =>
    show (if (kv.1 == k) = true then some kv.2 else getField (rest ++ extra) k)
        = (if (kv.1 == k) = true then some kv.2 else getField rest k)
    rw [ih]

/-- A trimmed-nonempty string passes the required-string field. -/
theorem parseTrimmedRequired_ok (msg s : String) (h : jsTrim s ≠ "") :
    parseTrimmedRequired msg s = .ok (jsTrim s) := by
  have hlt : ¬ ((jsTrim s).length < 1) := fun hc => h ((strLen_lt_one_iff _).mp hc)
  simp [parseTrimmedRequired, hlt]

/-- Same, through the JSON wrapper. -/
theorem parseTrimmedRequiredJson_ok (msg s : String) (h : jsTrim s ≠ "") :
    parseTrimmedRequiredJson msg (some (.str s)) = .ok (jsTrim s) := by
  simp [parseTrimmedRequiredJson, parseTrimmedRequired_ok msg s h]

/-- Every recipient string whose trim matches the digit pattern parses,
elementwise. -/
theorem parseRecipientList_map_str (rs : List String)
    (h : ∀ r ∈ rs, isDigits615 (jsTrim r) = true) :
    parseRecipientList (rs.map Json.str) = .ok (rs.map jsTrim) := by
  induction rs with
  | nil => rfl
  | cons r rest ih =>
    have hr : parseRecipient (.str r) = .ok (jsTrim r) := by
      simp [parseRecipient, h r (by simp)]
    simp [parseRecipientList, hr, ih (fun x hx => h x (by simp [hx]))]

/-- A nonempty list of pattern-matching recipients passes the
`recipients` field. -/
theorem parseRecipients_ok (rs : List String) (hne : rs ≠ [])
    (h : ∀ r ∈ rs, isDigits615 (jsTrim r) = true) :
    parseRecipients (some (.arr (rs.map Json.str))) = .ok (rs.map jsTrim) := by
  have hlen : ¬ ((rs.map Json.str).length < 1) := by
    simp only [List.length_map]
    have := List.length_pos.mpr hne
    omega
  simp [parseRecipients, hlen, hne, parseRecipientList_map_str rs h]

/-- A record whose values are all already strings passes `z.record`. -/
theorem parseVarList_map_str (kvs : List (String × String)) :
    parseVarList (kvs.map (fun kv => (kv.1, Json.str kv.2))) = .ok kvs := by
  induction kvs with
  | nil => rfl
  | cons kv rest ih => simp [parseVarList, parseVarPair, ih]

/-- The optional server `workflowVars` field on serialized string maps. -/
theorem parseWorkflowVarsServer_map (vs : Option (List (String × String))) :
    parseWorkflowVarsServer
      (vs.map (fun kvs => Json.obj (kvs.map (fun kv => (kv.1, Json.str kv.2))))) = .ok vs := by
  cases vs with
  | none => rfl
  | some kvs => simp [parseWorkflowVarsServer, parseVarList_map_str kvs]

/-- The optional server `mediaUrl` field on values passing the URL test. -/
theorem parseMediaUrlServer_map (urlOk : String → Bool) (md : Option String)
    (h : ∀ u ∈ md, urlOk u = true) :
    parseMediaUrlServer urlOk (md.map Json.str) = .ok md := by
  cases md with
  | none => rfl
  | some u => simp [parseMediaUrlServer, h u rfl]

/-- The optional server `sendAt` field under a passing refinement. -/
theorem parseSendAtServer_map (dateOk : String → Bool) (sd : Option String)
    (h : sendAtRefineOk dateOk sd = true) :
    parseSendAtServer dateOk (sd.map Json.str) = .ok sd := by
  cases sd with
  | none => rfl
  | some s => simp [parseSendAtServer, h]

/-- Key lookups over a serialized payload body. -/
theorem getField_bodyFields_tag (tag msg : String) (rs : List String) (md : Option String)
    (vs : Option (List (String × String))) (sd : Option String) :
    getField (bodyFields tag rs msg md vs sd) "workflowTag" = some (.str tag) := by
  cases md <;> cases vs <;> cases sd <;> rfl

theorem getField_bodyFields_recipients (tag msg : String) (rs : List String) (md : Option String)
    (vs : Option (List (String × String))) (sd : Option String) :
    getField (bodyFields tag rs msg md vs sd) "recipients" = some (.arr (rs.map Json.str)) := by
  cases md <;> cases vs <;> cases sd <;> rfl

theorem getField_bodyFields_message (tag msg : String) (rs : List String) (md : Option String)
    (vs : Option (List (String × String))) (sd : Option String) :
    getField (bodyFields tag rs msg md vs sd) "message" = some (.str msg) := by
  cases md <;> cases vs <;> cases sd <;> rfl

theorem getField_bodyFields_mediaUrl (tag msg : String) (rs : List String) (md : Option String)
    (vs : Option (List (String × String))) (sd : Option String) :
    getField (bodyFields tag rs msg md vs sd) "mediaUrl" = md.map Json.str := by
  cases md <;> cases vs <;> cases sd <;> rfl

theorem getField_bodyFields_workflowVars (tag msg : String) (rs : List String) (md : Option String)
    (vs : Option (List (String × String))) (sd : Option String) :
    getField (bodyFields tag rs msg md vs sd) "workflowVars"
      = vs.map (fun kvs => Json.obj (kvs.map (fun kv => (kv.1, Json.str kv.2)))) := by
  cases md <;> cases vs <;> cases sd <;> rfl

theorem getField_bodyFields_sendAt (tag msg : String) (rs : List String) (md : Option String)
    (vs : Option (List (String × String))) (sd : Option String) :
    getField (bodyFields tag rs msg md vs sd) "sendAt" = sd.map Json.str := by
  cases md <;> cases vs <;> cases sd <;> rfl

/-- Core acceptance lemma for the server validator: a body whose
`workflowTag`/`message` trim to nonempty strings, whose recipients are a
nonempty list of strings matching the digit pattern after trim, whose
`mediaUrl` (if present) passes the URL test, whose `workflowVars` values
are strings and whose `sendAt` passes the date refinement, is accepted;
the output trims `workflowTag`, `message` and each recipient and passes
`mediaUrl`, `workflowVars`, `sendAt` through unchanged. -/
theorem inboundSafeParse_bodyFields (urlOk dateOk : String → Bool)
    (tag msg : String) (rs : List String) (md : Option String)
    (vs : Option (List (String × String))) (sd : Option String)
    (htag : jsTrim tag ≠ "") (hmsg : jsTrim msg ≠ "")
    (hne : rs ≠ []) (hdig : ∀ r ∈ rs, isDigits615 (jsTrim r) = true)
    (hmd : ∀ u ∈ md, urlOk u = true)
    (hsd : sendAtRefineOk dateOk sd = true) :
    inboundSafeParse urlOk dateOk (Json.obj (bodyFields tag rs msg md vs sd))
      = .ok ⟨jsTrim tag, rs.map jsTrim, jsTrim msg, md, vs, sd⟩ := by
  simp only [inboundSafeParse,
    getField_bodyFields_tag, getField_bodyFields_recipients, getField_bodyFields_message,
    getField_bodyFields_mediaUrl, getField_bodyFields_workflowVars, getField_bodyFields_sendAt,
    parseTrimmedRequiredJson_ok _ _ htag, parseTrimmedRequiredJson_ok _ _ hmsg,
    parseRecipients_ok rs hne hdig, parseMediaUrlServer_map urlOk md hmd,
    parseWorkflowVarsServer_map vs, parseSendAtServer_map dateOk sd hsd]

/-- Inversion for the required-string field. -/
theorem parseTrimmedRequired_ok_inv (msg s v : String)
    (h : parseTrimmedRequired msg s = .ok v) : v = jsTrim s ∧ jsTrim s ≠ "" := by
  unfold parseTrimmedRequired at h
  by_cases hc : (jsTrim s).length < 1
  · rw [if_pos hc] at h
    simp at h
  · rw [if_neg hc] at h
    refine ⟨by injection h with h2; exact h2.symm, ?_⟩
    intro he
    exact hc ((strLen_lt_one_iff _).mpr he)

/-- Inversion for the client recipients field: on success the output is
exactly the split-trim-filter normalization of the raw text. -/
theorem parseRecipientsClient_ok_inv (raw : String) (rs : List String)
    (h : parseRecipientsClient raw = .ok rs) :
    rs = ((jsSplitSeps (jsTrim raw)).map jsTrim).filter (fun e => e != "") := by
  unfold parseRecipientsClient at h
  by_cases hc : (jsTrim raw).length < 1
  · rw [if_pos hc] at h
    simp at h
  · rw [if_neg hc] at h
    injection h with h2
    exact h2.symm

/-- Inversion for the client mediaUrl union: success passes the input
through, and the input was a valid URL or empty. -/
theorem parseMediaUrlClient_ok_inv (urlOk : String → Bool) (s : String) (mo : Option String)
    (h : parseMediaUrlClient urlOk (some s) = .ok mo) :
    mo = some s ∧ (urlOk s = true ∨ s = "") := by
  have h2 : (if urlOk s = true then Except.ok (some s)
      else if (s == "") = true then Except.ok (some "")
      else Except.error (α := Option String) ["Invalid input"]) = Except.ok mo := h
  by_cases hu : urlOk s
  · rw [if_pos hu] at h2
    injection h2 with h3
    exact ⟨h3.symm, Or.inl hu⟩
  · rw [if_neg hu] at h2
    by_cases he : s == ""
    · rw [if_pos he] at h2
      injection h2 with h3
      have hse : s = "" := by simpa using he
      subst hse
      exact ⟨h3.symm, Or.inr rfl⟩
    · rw [if_neg he] at h2
      simp at h2

/-- Inversion for the client sendAt field: success passes the value
through and the refinement held. -/
theorem parseSendAtClient_ok_inv (dateOk : String → Bool) (v w : Option String)
    (h : parseSendAtClient dateOk v = .ok w) :
    w = v ∧ sendAtRefineOk dateOk v = true := by
  cases v with
  | none =>
    unfold parseSendAtClient at h
    injection h with h2
    exact ⟨h2.symm, rfl⟩
  | some s =>
    have h2 : (if sendAtRefineOk dateOk (some s) = true then Except.ok (some s)
        else Except.error (α := Option String) ["Send at must be a valid ISO date"])
        = Except.ok w := h
    by_cases hc : sendAtRefineOk dateOk (some s) = true
    · rw [if_pos hc] at h2
      injection h2 with h3
      exact ⟨h3.symm, hc⟩
    · rw [if_neg hc] at h2
      simp at h2

/-- Inversion of a successful client `payloadSchema.safeParse`: every
field parser succeeded with the corresponding component of the output. -/
theorem payloadSafeParse_ok_inv (urlOk dateOk : String → Bool) (d : DraftInput) (p : Payload)
    (h : payloadSafeParse urlOk dateOk d = .ok p) :
    parseTrimmedRequired "Workflow tag is required" d.workflowTag = .ok p.workflowTag ∧
    parseRecipientsClient d.recipients = .ok p.recipients ∧
    parseTrimmedRequired "A message body is required" d.message = .ok p.message ∧
    parseMediaUrlClient urlOk d.mediaUrl = .ok p.mediaUrl ∧
    d.workflowVars = p.workflowVars ∧
    parseSendAtClient dateOk d.sendAt = .ok p.sendAt := by
  obtain ⟨pw, pr, pm, pmd, pv, ps⟩ := p
  unfold payloadSafeParse at h
  rcases h1 : parseTrimmedRequired "Workflow tag is required" d.workflowTag with e1 | a <;>
    rcases h2 : parseRecipientsClient d.recipients with e2 | b <;>
    rcases h3 : parseTrimmedRequired "A message body is required" d.message with e3 | c <;>
    rcases h4 : parseMediaUrlClient urlOk d.mediaUrl with e4 | m <;>
    rcases h5 : parseSendAtClient dateOk d.sendAt with e5 | t <;>
    rw [h1, h2, h3, h4, h5] at h <;>
    simp at h
  obtain ⟨q1, q2, q3, q4, q5, q6⟩ := h
  subst q1; subst q2; subst q3; subst q4; subst q5; subst q6
  exact ⟨rfl, rfl, rfl, rfl, rfl, rfl⟩

/-- A list of already-trimmed strings is fixed by mapping `jsTrim`. -/
theorem map_jsTrim_fixed (rs : List String) (h : ∀ r ∈ rs, jsTrim r = r) :
    rs.map jsTrim = rs := by
  induction rs with
  | nil => rfl
  | cons r rest ih =>
    simp only [List.map_cons, h r (by simp), ih (fun x hx => h x (by simp [hx]))]

/-- Everything the client pipeline guarantees about an accepted payload:
`workflowTag`/`message` are the trims of the form fields and nonempty,
every recipient is trim-fixed, `mediaUrl` is the raw form string (valid
URL or empty), and the `sendAt` refinement held on the forwarded value. -/
theorem clientPipeline_accepted_inv (urlOk dateOk : String → Bool)
    (isoNorm : String → Option String) (pv : Except String Json)
    (form : FormFields) (p : Payload)
    (h : clientPipeline urlOk dateOk isoNorm pv form = .accepted p) :
    p.workflowTag = jsTrim form.workflowTag ∧ jsTrim form.workflowTag ≠ "" ∧
    p.message = jsTrim form.message ∧ jsTrim form.message ≠ "" ∧
    (∀ r ∈ p.recipients, jsTrim r = r) ∧
    p.mediaUrl = some form.mediaUrl ∧ (urlOk form.mediaUrl = true ∨ form.mediaUrl = "") ∧
    sendAtRefineOk dateOk p.sendAt = true := by
  unfold clientPipeline at h
  rcases hv : tryParseWorkflowVars form.workflowVars pv with vars | m <;> rw [hv] at h
  · have h2 : (match payloadSafeParse urlOk dateOk
        ⟨form.workflowTag, form.recipients, form.message, some form.mediaUrl,
         vars, normalizeDateField isoNorm form.sendAt⟩ with
      | Except.error issues => ClientOutcome.invalid issues
      | Except.ok q => ClientOutcome.accepted q) = ClientOutcome.accepted p := h
    rcases hp : payloadSafeParse urlOk dateOk
        ⟨form.workflowTag, form.recipients, form.message, some form.mediaUrl,
         vars, normalizeDateField isoNorm form.sendAt⟩ with es | q <;> rw [hp] at h2
    · simp at h2
    · have h3 : ClientOutcome.accepted q = ClientOutcome.accepted p := h2
      injection h3 with hqp
      subst hqp
      obtain ⟨f1, f2, f3, f4, _, f6⟩ := payloadSafeParse_ok_inv _ _ _ _ hp
      obtain ⟨g1a, g1b⟩ := parseTrimmedRequired_ok_inv _ _ _ f1
      have hrec := parseRecipientsClient_ok_inv _ _ f2
      obtain ⟨g3a, g3b⟩ := parseTrimmedRequired_ok_inv _ _ _ f3
      obtain ⟨g4a, g4b⟩ := parseMediaUrlClient_ok_inv _ _ _ f4
      obtain ⟨g6a, g6b⟩ := parseSendAtClient_ok_inv _ _ _ f6
      refine ⟨g1a, g1b, g3a, g3b, ?_, g4a, g4b, ?_⟩
      · intro r hr
        rw [hrec] at hr
        obtain ⟨hmem, _⟩ := List.mem_filter.mp hr
        obtain ⟨x, _, rfl⟩ := List.mem_map.mp hmem
        exact jsTrim_idem x
      · rw [g6a]
        exact g6b
  · simp at h

/-!  Claim theorems. -/

/-- C1 (amended): a payload accepted by the full client-facing validator
(`payloadSchema` plus `tryParseWorkflowVars` and `normalizeDateField`) is
accepted verbatim by the server-facing validator (`inboundSchema`)
PROVIDED the normalized recipients list is nonempty, every normalized
recipient matches the digit pattern, and the normalized `mediaUrl` is not
the empty string.  (The unrestricted claim is false — see the
counterexample — because the client never digit-checks recipients and
accepts an empty `mediaUrl` that the server rejects, so the two
validators do not enforce identical constraints.) -/
theorem c1_roundTrip_amended (urlOk dateOk : String → Bool) (isoNorm : String → Option String)
    (pv : Except String Json) (form : FormFields) (p : Payload)
    (h : clientPipeline urlOk dateOk isoNorm pv form = .accepted p)
    (hne : p.recipients ≠ [])
    (hdig : ∀ r ∈ p.recipients, isDigits615 r = true)
    (hmedia : p.mediaUrl ≠ some "") :
    inboundSafeParse urlOk dateOk (payloadToJson p) = .ok p := by
  obtain ⟨e1, e2, e3, e4, e5, e6, e7, e8⟩ := clientPipeline_accepted_inv _ _ _ _ _ _ h
  have htag : jsTrim p.workflowTag ≠ "" := by rw [e1, jsTrim_idem]; exact e2
  have hmsg : jsTrim p.message ≠ "" := by rw [e3, jsTrim_idem]; exact e4
  have hdig2 : ∀ r ∈ p.recipients, isDigits615 (jsTrim r) = true := fun r hr => by
    rw [e5 r hr]
    exact hdig r hr
  have hmd : ∀ u ∈ p.mediaUrl, urlOk u = true := by
    intro u hu
    rw [e6] at hu
    have hu2 : form.mediaUrl = u := by simpa using hu
    subst hu2
    rcases e7 with h7 | h7
    · exact h7
    · exact absurd (by rw [e6, h7]) hmedia
  have hserver := inboundSafeParse_bodyFields urlOk dateOk p.workflowTag p.message p.recipients
      p.mediaUrl p.workflowVars p.sendAt htag hmsg hne hdig2 hmd e8
  have ht2 : jsTrim p.workflowTag = p.workflowTag := by
    calc jsTrim p.workflowTag = jsTrim (jsTrim form.workflowTag) := by rw [e1]
      _ = jsTrim form.workflowTag := jsTrim_idem _
      _ = p.workflowTag := e1.symm
  have hm2 : jsTrim p.message = p.message := by
    calc jsTrim p.message = jsTrim (jsTrim form.message) := by rw [e3]
      _ = jsTrim form.message := jsTrim_idem _
      _ = p.message := e3.symm
  unfold payloadToJson
  rw [hserver, ht2, hm2, map_jsTrim_fixed _ e5]

/-- C1 (counterexample): the raw form draft with recipients text `abc`
and empty `mediaUrl` is accepted by the client-facing validator, but its
normalized payload is rejected by the server-facing validator with a
recipients issue and a mediaUrl issue — the claimed round-trip and the
byte-identical-constraints property both fail.  (`urlOk` is the
`new URL` test: it holds neither for `abc` nor for the empty string.) -/
theorem c1_roundTrip_counterexample :
    clientPipeline (fun _ => false) (fun _ => false) (fun _ => none) (Except.error "ignored")
        ⟨"t", "abc", "m", "", "", ""⟩
      = ClientOutcome.accepted ⟨"t", ["abc"], "m", some "", none, none⟩
    ∧ inboundSafeParse (fun _ => false) (fun _ => false)
        (payloadToJson ⟨"t", ["abc"], "m", some "", none, none⟩)
      = .error ["Recipients must be numeric in international format", "Invalid url"]
    ∧ exceptIsOk (inboundSafeParse (fun _ => false) (fun _ => false)
        (payloadToJson ⟨"t", ["abc"], "m", some "", none, none⟩)) = false := by
  exact ⟨rfl, rfl, rfl⟩

/-- C1 (witness): a concrete well-formed form draft flows through the
client validator and is then accepted unchanged by the server validator. -/
theorem c1_roundTrip_witness :
    clientPipeline (fun s => s == "https://x") (fun _ => false) (fun _ => none)
        (Except.error "ignored")
        ⟨" promo ", "15551234567, 15557654321", "hi", "https://x", "", ""⟩
      = ClientOutcome.accepted
          ⟨"promo", ["15551234567", "15557654321"], "hi", some "https://x", none, none⟩
    ∧ inboundSafeParse (fun s => s == "https://x") (fun _ => false)
        (payloadToJson ⟨"promo", ["15551234567", "15557654321"], "hi", some "https://x", none, none⟩)
      = .ok ⟨"promo", ["15551234567", "15557654321"], "hi", some "https://x", none, none⟩ := by
  refine ⟨rfl, ?_⟩
  exact c1_roundTrip_amended (fun s => s == "https://x") (fun _ => false) (fun _ => none)
    (Except.error "ignored")
    ⟨" promo ", "15551234567, 15557654321", "hi", "https://x", "", ""⟩
    ⟨"promo", ["15551234567", "15557654321"], "hi", some "https://x", none, none⟩
    rfl (by decide) (by decide) (by decide)

/-- Unknown keys appended to a request body do not change the result of
the server validator: `z.object` reads only its declared keys. -/
theorem inboundSafeParse_append_extra (urlOk dateOk : String → Bool)
    (fields extra : List (String × Json))
    (h : ∀ kv ∈ extra, kv.1 ∉ schemaKeys) :
    inboundSafeParse urlOk dateOk (.obj (fields ++ extra))
      = inboundSafeParse urlOk dateOk (.obj fields) := by
  have hk : ∀ k, k ∈ schemaKeys →
      getField (fields ++ extra) k = getField fields k := by
    intro k hkmem
    exact getField_append_of_ne fields extra k
      (fun kv hkv he => h kv hkv (he ▸ hkmem))
  simp only [inboundSafeParse,
    hk "workflowTag" (by simp [schemaKeys]),
    hk "recipients" (by simp [schemaKeys]),
    hk "message" (by simp [schemaKeys]),
    hk "mediaUrl" (by simp [schemaKeys]),
    hk "workflowVars" (by simp [schemaKeys]),
    hk "sendAt" (by simp [schemaKeys])]

/-- The forwarded body always carries `requestedAt` = the server time. -/
theorem jsonGet_forwardedJson_requestedAt (p : Payload) (now : String) (o : Option String) :
    jsonGet (forwardedJson p now o) "requestedAt" = some (.str now) := by
  rcases p with ⟨tag, rs, msg, md, vs, sd⟩
  cases md <;> cases vs <;> cases sd <;> cases o <;> rfl

/-- The forwarded body carries `origin` exactly when the caller sent an
Origin header, with that header value. -/
theorem jsonGet_forwardedJson_origin (p : Payload) (now : String) (o : Option String) :
    jsonGet (forwardedJson p now o) "origin" = o.map Json.str := by
  rcases p with ⟨tag, rs, msg, md, vs, sd⟩
  cases md <;> cases vs <;> cases sd <;> cases o <;> rfl

/-- The exact ordered key list of the forwarded body. -/
theorem jsonKeys_forwardedJson (p : Payload) (now : String) (o : Option String) :
    jsonKeys (forwardedJson p now o)
      = ["workflowTag", "recipients", "message"]
        ++ (if p.mediaUrl.isSome then ["mediaUrl"] else [])
        ++ (if p.workflowVars.isSome then ["workflowVars"] else [])
        ++ (if p.sendAt.isSome then ["sendAt"] else [])
        ++ ["requestedAt"]
        ++ (if o.isSome then ["origin"] else []) := by
  rcases p with ⟨tag, rs, msg, md, vs, sd⟩
  cases md <;> cases vs <;> cases sd <;> cases o <;> rfl

/-- After a successful parse the handler issues exactly one outbound call,
carrying the enriched payload, whatever the downstream does. -/
theorem handlePOST_calls (urlOk dateOk : String → Bool) (url : String)
    (apiKey : Option String) (j : Json) (origin : Option String) (now : String)
    (ds : Downstream) (p : Payload)
    (h : inboundSafeParse urlOk dateOk j = .ok p) :
    (handlePOST urlOk dateOk (some url) apiKey (.json j) origin now ds).2
      = [⟨url, mkHeaders apiKey, forwardedJson p now origin⟩] := by
  cases ds with
  | throws m => simp [handlePOST, h]
  | responds st text js =>
    simp only [handlePOST, h]
    split <;> rfl

/-- C2: the forwarded payload always has `requestedAt` set to the server
clock value and `origin` taken from (and only from) the caller Origin
header; any `requestedAt`/`origin` keys supplied inside the request body
are stripped by the schema and change nothing. -/
theorem c2_requestedAt_origin_server_owned (urlOk dateOk : String → Bool) (url : String)
    (apiKey : Option String) (fields : List (String × Json)) (v w : Json)
    (origin : Option String) (now : String) (ds : Downstream) (p : Payload)
    (h : inboundSafeParse urlOk dateOk (.obj fields) = .ok p) :
    handlePOST urlOk dateOk (some url) apiKey
        (.json (.obj (fields ++ [("requestedAt", v), ("origin", w)]))) origin now ds
      = handlePOST urlOk dateOk (some url) apiKey (.json (.obj fields)) origin now ds
    ∧ (handlePOST urlOk dateOk (some url) apiKey (.json (.obj fields)) origin now ds).2
      = [⟨url, mkHeaders apiKey, forwardedJson p now origin⟩]
    ∧ jsonGet (forwardedJson p now origin) "requestedAt" = some (.str now)
    ∧ jsonGet (forwardedJson p now origin) "origin" = origin.map Json.str := by
  have hstrip := inboundSafeParse_append_extra urlOk dateOk fields
    [("requestedAt", v), ("origin", w)]
    (by
      intro kv hkv
      simp only [List.mem_cons, List.not_mem_nil, or_false] at hkv
      rcases hkv with rfl | rfl
      · show "requestedAt" ∉ schemaKeys
        decide
      · show "origin" ∉ schemaKeys
        decide)
  refine ⟨?_, handlePOST_calls urlOk dateOk url apiKey _ origin now ds p h,
    jsonGet_forwardedJson_requestedAt p now origin,
    jsonGet_forwardedJson_origin p now origin⟩
  simp only [handlePOST, hstrip]

/-- C2 (witness): a body that smuggles `requestedAt`/`origin` keys is
handled identically to the clean body, and the one outbound call carries
the server-chosen `requestedAt` and the Origin-header value. -/
theorem c2_witness :
    handlePOST (fun _ => false) (fun _ => false) (some "https://n8n.example") none
        (.json (.obj [("workflowTag", .str "t"), ("recipients", .arr [.str "123456"]),
          ("message", .str "m"), ("requestedAt", .str "1999-01-01T00:00:00.000Z"),
          ("origin", .str "https://evil.example")]))
        (some "https://app.example") "2026-10-11T00:00:00.000Z" (.responds 200 "" none)
      = handlePOST (fun _ => false) (fun _ => false) (some "https://n8n.example") none
          (.json (.obj [("workflowTag", .str "t"), ("recipients", .arr [.str "123456"]),
            ("message", .str "m")]))
          (some "https://app.example") "2026-10-11T00:00:00.000Z" (.responds 200 "" none)
    ∧ (handlePOST (fun _ => false) (fun _ => false) (some "https://n8n.example") none
        (.json (.obj [("workflowTag", .str "t"), ("recipients", .arr [.str "123456"]),
          ("message", .str "m")]))
        (some "https://app.example") "2026-10-11T00:00:00.000Z" (.responds 200 "" none)).2
      = [⟨"https://n8n.example", mkHeaders none,
          forwardedJson ⟨"t", ["123456"], "m", none, none, none⟩
            "2026-10-11T00:00:00.000Z" (some "https://app.example")⟩]
    ∧ jsonGet (forwardedJson ⟨"t", ["123456"], "m", none, none, none⟩
          "2026-10-11T00:00:00.000Z" (some "https://app.example")) "requestedAt"
      = some (.str "2026-10-11T00:00:00.000Z")
    ∧ jsonGet (forwardedJson ⟨"t", ["123456"], "m", none, none, none⟩
          "2026-10-11T00:00:00.000Z" (some "https://app.example")) "origin"
      = some (.str "https://app.example") :=
  c2_requestedAt_origin_server_owned (fun _ => false) (fun _ => false) "https://n8n.example" none
    [("workflowTag", .str "t"), ("recipients", .arr [.str "123456"]), ("message", .str "m")]
    (.str "1999-01-01T00:00:00.000Z") (.str "https://evil.example")
    (some "https://app.example") "2026-10-11T00:00:00.000Z" (.responds 200 "" none)
    ⟨"t", ["123456"], "m", none, none, none⟩ rfl

/-- C3: every JSON body rejected by the server validator gets a 422
response carrying the full ordered issue list, and no outbound call. -/
theorem c3_validation_422 (urlOk dateOk : String → Bool) (url : String)
    (apiKey : Option String) (j : Json) (issues : List String)
    (origin : Option String) (now : String) (ds : Downstream)
    (h : inboundSafeParse urlOk dateOk j = .error issues) :
    handlePOST urlOk dateOk (some url) apiKey (.json j) origin now ds
      = (⟨422, "Validation failed", some issues, none⟩, []) := by
  simp [handlePOST, h]

/-- C3 (witness): the body with empty `workflowTag`, empty `recipients`
and empty `message` yields 422 with the three issues, in field order. -/
theorem c3_witness :
    handlePOST (fun _ => false) (fun _ => false) (some "https://n8n.example") none
        (.json (.obj [("workflowTag", .str ""), ("recipients", .arr []), ("message", .str "")]))
        none "2026-10-11T00:00:00.000Z" (.responds 200 "" none)
      = (⟨422, "Validation failed",
          some ["workflowTag is required", "Provide at least one recipient",
            "message is required"], none⟩, []) :=
  c3_validation_422 (fun _ => false) (fun _ => false) "https://n8n.example" none
    (.obj [("workflowTag", .str ""), ("recipients", .arr []), ("message", .str "")])
    ["workflowTag is required", "Provide at least one recipient", "message is required"]
    none "2026-10-11T00:00:00.000Z" (.responds 200 "" none) rfl

/-- C6: with the downstream URL unset the handler answers 500 with a
message naming the missing `N8N_WEBHOOK_URL`, and performs no outbound
call, whatever the body, headers, clock or downstream behaviour. -/
theorem c6_missing_config_500 (urlOk dateOk : String → Bool) (apiKey : Option String)
    (body : RequestBody) (origin : Option String) (now : String) (ds : Downstream) :
    handlePOST urlOk dateOk none apiKey body origin now ds
      = (⟨500,
          "N8N_WEBHOOK_URL is not configured. Set it in your Vercel project environment variables.",
          none, none⟩, []) := rfl

/-- C7: a valid request whose downstream answer has a non-2xx status is
mapped to 502; the downstream status appears in the message, and the raw
downstream body text is surfaced as the single issue exactly when it is
nonempty (omitted when empty). -/
theorem c7_gateway_502 (urlOk dateOk : String → Bool) (url : String)
    (apiKey : Option String) (j : Json) (p : Payload) (origin : Option String)
    (now : String) (st : Nat) (text : String) (js : Option Json)
    (h : inboundSafeParse urlOk dateOk j = .ok p)
    (hst : ¬ (200 ≤ st ∧ st ≤ 299)) :
    handlePOST urlOk dateOk (some url) apiKey (.json j) origin now (.responds st text js)
      = (⟨502, "n8n responded with status " ++ toString st,
          if text == "" then none else some [text], none⟩,
         [⟨url, mkHeaders apiKey, forwardedJson p now origin⟩]) := by
  simp only [handlePOST, h]
  rw [if_neg hst]

/-- C7 (witness): downstream HTTP 500 with body `boom` yields 502 with
issues `["boom"]` and the status in the message. -/
theorem c7_witness :
    handlePOST (fun _ => false) (fun _ => false) (some "https://n8n.example") none
        (.json (.obj [("workflowTag", .str "t"), ("recipients", .arr [.str "123456"]),
          ("message", .str "m")]))
        none "2026-10-11T00:00:00.000Z" (.responds 500 "boom" none)
      = (⟨502, "n8n responded with status 500", some ["boom"], none⟩,
         [⟨"https://n8n.example", mkHeaders none,
           forwardedJson ⟨"t", ["123456"], "m", none, none, none⟩
             "2026-10-11T00:00:00.000Z" none⟩]) :=
  c7_gateway_502 (fun _ => false) (fun _ => false) "https://n8n.example" none
    (.obj [("workflowTag", .str "t"), ("recipients", .arr [.str "123456"]),
      ("message", .str "m")])
    ⟨"t", ["123456"], "m", none, none, none⟩ none "2026-10-11T00:00:00.000Z"
    500 "boom" none rfl (by decide)

/-- C8: a valid request whose outbound call throws is mapped to 504 with
the transport error message as the single issue; the attempted call is
recorded, and the failure is reported, not swallowed. -/
theorem c8_upstream_504 (urlOk dateOk : String → Bool) (url : String)
    (apiKey : Option String) (j : Json) (p : Payload) (origin : Option String)
    (now : String) (m : String)
    (h : inboundSafeParse urlOk dateOk j = .ok p) :
    handlePOST urlOk dateOk (some url) apiKey (.json j) origin now (.throws m)
      = (⟨504, "Failed to communicate with n8n webhook.", some [m], none⟩,
         [⟨url, mkHeaders apiKey, forwardedJson p now origin⟩]) := by
  simp [handlePOST, h]

/-- C8 (witness): a concrete connection failure surfaces its message. -/
theorem c8_witness :
    handlePOST (fun _ => false) (fun _ => false) (some "https://n8n.example") none
        (.json (.obj [("workflowTag", .str "t"), ("recipients", .arr [.str "123456"]),
          ("message", .str "m")]))
        none "2026-10-11T00:00:00.000Z" (.throws "fetch failed: ECONNREFUSED")
      = (⟨504, "Failed to communicate with n8n webhook.",
          some ["fetch failed: ECONNREFUSED"], none⟩,
         [⟨"https://n8n.example", mkHeaders none,
           forwardedJson ⟨"t", ["123456"], "m", none, none, none⟩
             "2026-10-11T00:00:00.000Z" none⟩]) :=
  c8_upstream_504 (fun _ => false) (fun _ => false) "https://n8n.example" none
    (.obj [("workflowTag", .str "t"), ("recipients", .arr [.str "123456"]),
      ("message", .str "m")])
    ⟨"t", ["123456"], "m", none, none, none⟩ none "2026-10-11T00:00:00.000Z"
    "fetch failed: ECONNREFUSED" rfl

/-- C10: unrecognized keys in the request body are stripped by the schema
and never forwarded — the handler behaves identically with them — and the
forwarded body contains exactly the validated schema fields (optional
ones only when present) plus `requestedAt`, plus `origin` exactly when
the caller sent an Origin header. -/
theorem c10_forwarded_frame (urlOk dateOk : String → Bool) (url : String)
    (apiKey : Option String) (fields extra : List (String × Json)) (p : Payload)
    (origin : Option String) (now : String) (ds : Downstream)
    (h : inboundSafeParse urlOk dateOk (.obj fields) = .ok p)
    (hex : ∀ kv ∈ extra, kv.1 ∉ schemaKeys) :
    handlePOST urlOk dateOk (some url) apiKey (.json (.obj (fields ++ extra))) origin now ds
      = handlePOST urlOk dateOk (some url) apiKey (.json (.obj fields)) origin now ds
    ∧ (handlePOST urlOk dateOk (some url) apiKey (.json (.obj fields)) origin now ds).2
      = [⟨url, mkHeaders apiKey, forwardedJson p now origin⟩]
    ∧ jsonKeys (forwardedJson p now origin)
      = ["workflowTag", "recipients", "message"]
        ++ (if p.mediaUrl.isSome then ["mediaUrl"] else [])
        ++ (if p.workflowVars.isSome then ["workflowVars"] else [])
        ++ (if p.sendAt.isSome then ["sendAt"] else [])
        ++ ["requestedAt"]
        ++ (if origin.isSome then ["origin"] else []) := by
  refine ⟨?_, handlePOST_calls urlOk dateOk url apiKey _ origin now ds p h,
    jsonKeys_forwardedJson p now origin⟩
  simp only [handlePOST, inboundSafeParse_append_extra urlOk dateOk fields extra hex]

/-- C10 (witness): a junk key `zzz` is stripped, and with no Origin
header the forwarded body has exactly the keys
`workflowTag, recipients, message, requestedAt`. -/
theorem c10_witness :
    handlePOST (fun _ => false) (fun _ => false) (some "https://n8n.example") none
        (.json (.obj [("workflowTag", .str "t"), ("recipients", .arr [.str "123456"]),
          ("message", .str "m"), ("zzz", .str "junk")]))
        none "2026-10-11T00:00:00.000Z" (.responds 200 "" none)
      = handlePOST (fun _ => false) (fun _ => false) (some "https://n8n.example") none
          (.json (.obj [("workflowTag", .str "t"), ("recipients", .arr [.str "123456"]),
            ("message", .str "m")]))
          none "2026-10-11T00:00:00.000Z" (.responds 200 "" none)
    ∧ (handlePOST (fun _ => false) (fun _ => false) (some "https://n8n.example") none
        (.json (.obj [("workflowTag", .str "t"), ("recipients", .arr [.str "123456"]),
          ("message", .str "m")]))
        none "2026-10-11T00:00:00.000Z" (.responds 200 "" none)).2
      = [⟨"https://n8n.example", mkHeaders none,
          forwardedJson ⟨"t", ["123456"], "m", none, none, none⟩
            "2026-10-11T00:00:00.000Z" none⟩]
    ∧ jsonKeys (forwardedJson ⟨"t", ["123456"], "m", none, none, none⟩
          "2026-10-11T00:00:00.000Z" none)
      = ["workflowTag", "recipients", "message", "requestedAt"] :=
  c10_forwarded_frame (fun _ => false) (fun _ => false) "https://n8n.example" none
    [("workflowTag", .str "t"), ("recipients", .arr [.str "123456"]), ("message", .str "m")]
    [("zzz", .str "junk")]
    ⟨"t", ["123456"], "m", none, none, none⟩ none "2026-10-11T00:00:00.000Z"
    (.responds 200 "" none) rfl
    (by
      intro kv hkv
      simp only [List.mem_cons, List.not_mem_nil, or_false] at hkv
      subst hkv
      show "zzz" ∉ schemaKeys
      decide)

/-- C4 (counterexample): an otherwise valid body with `mediaUrl` set to
the empty string IS rejected by the server validator with a mediaUrl
issue (`z.string().url()` has no empty-string escape and `new URL("")`
throws, so `urlOk "" = false`), while the client validator accepts the
empty string — contradicting the claim that both validators report no
issue for an empty `mediaUrl`. -/
theorem c4_mediaUrl_counterexample :
    inboundSafeParse (fun _ => false) (fun _ => false)
        (.obj [("workflowTag", .str "t"), ("recipients", .arr [.str "123456"]),
          ("message", .str "m"), ("mediaUrl", .str "")])
      = .error ["Invalid url"]
    ∧ exceptIsOk (inboundSafeParse (fun _ => false) (fun _ => false)
        (.obj [("workflowTag", .str "t"), ("recipients", .arr [.str "123456"]),
          ("message", .str "m"), ("mediaUrl", .str "")])) = false
    ∧ parseMediaUrlClient (fun _ => false) (some "") = .ok (some "") :=
  ⟨rfl, rfl, rfl⟩

/-- C4 (amended): the client-facing `mediaUrl` field reports no issue
when the value is absent or empty, and an issue exactly when it is
nonempty and fails the URL test; the server-facing field reports no
issue when absent, but an issue exactly when the URL test fails — which
includes the empty string, rejected with `Invalid url`. -/
theorem c4_mediaUrl_amended (urlOk : String → Bool) (s : String)
    (h0 : urlOk "" = false) :
    parseMediaUrlClient urlOk none = .ok none
    ∧ (exceptErrs (parseMediaUrlClient urlOk (some s)) ≠ [] ↔ (s ≠ "" ∧ urlOk s = false))
    ∧ parseMediaUrlServer urlOk none = .ok none
    ∧ (exceptErrs (parseMediaUrlServer urlOk (some (.str s))) ≠ [] ↔ urlOk s = false)
    ∧ exceptErrs (parseMediaUrlServer urlOk (some (.str ""))) = ["Invalid url"] := by
  refine ⟨rfl, ?_, rfl, ?_, ?_⟩
  · by_cases hu : urlOk s = true
    · simp [parseMediaUrlClient, exceptErrs, hu]
    · have hu2 : urlOk s = false := by simpa using hu
      by_cases he : s = ""
      · subst he
        simp [parseMediaUrlClient, exceptErrs, hu2]
      · have he2 : (s == "") = false := beq_eq_false_iff_ne.mpr he
        simp [parseMediaUrlClient, exceptErrs, hu2, he2, he]
  · by_cases hu : urlOk s = true
    · simp [parseMediaUrlServer, exceptErrs, hu]
    · have hu2 : urlOk s = false := by simpa using hu
      simp [parseMediaUrlServer, exceptErrs, hu2]
  · simp [parseMediaUrlServer, exceptErrs, h0]

/-- C4 (witness): with the URL test that rejects everything (consistent
with `new URL` on `""` and on `x`), the empty string passes the client
field, is rejected by the server field, and `x` is rejected by both. -/
theorem c4_witness :
    parseMediaUrlClient (fun _ => false) none = .ok none
    ∧ (exceptErrs (parseMediaUrlClient (fun _ => false) (some "x")) ≠ []
        ↔ ("x" ≠ "" ∧ (fun _ => false) "x" = false))
    ∧ parseMediaUrlServer (fun _ => false) none = .ok none
    ∧ (exceptErrs (parseMediaUrlServer (fun _ => false) (some (.str "x"))) ≠ []
        ↔ (fun _ => false) "x" = false)
    ∧ exceptErrs (parseMediaUrlServer (fun _ => false) (some (.str ""))) = ["Invalid url"] :=
  c4_mediaUrl_amended (fun _ => false) "x" rfl

/-- C5 (counterexample): for `workflowVars` the two validators disagree
with the claim.  The client-side `tryParseWorkflowVars` does coerce the
object `a: 1` to `a: "1"`, but the server-side `z.record(z.string(),
z.string())` rejects the same object with a type error instead of
coercing, and rejects a JSON array with the zod `Expected object, received
array` — not with a `must be a JSON object` issue. -/
theorem c5_workflowVars_counterexample :
    tryParseWorkflowVars "x" (.ok (.obj [("a", .num 1)])) = .ok (some [("a", "1")])
    ∧ inboundSafeParse (fun _ => false) (fun _ => false)
        (.obj [("workflowTag", .str "t"), ("recipients", .arr [.str "123456"]),
          ("message", .str "m"), ("workflowVars", .obj [("a", .num 1)])])
      = .error ["Expected string, received number"]
    ∧ inboundSafeParse (fun _ => false) (fun _ => false)
        (.obj [("workflowTag", .str "t"), ("recipients", .arr [.str "123456"]),
          ("message", .str "m"), ("workflowVars", .arr [.num 1])])
      = .error ["Expected object, received array"] := by
  refine ⟨?_, rfl, rfl⟩
  have h1 : (jsTrim "x" == "") = false := by decide
  simp [tryParseWorkflowVars, h1, isPlainObject, jsToString]
  rfl

/-- C5 (amended): the client-facing `tryParseWorkflowVars` accepts
object-shaped values with every value coerced to its string
representation and rejects arrays and primitives with the
`must be a JSON object` issue; the server-facing `z.record` accepts an
object only when every value is already a string (no coercion — a
number-valued entry is a type error) and rejects arrays and primitives
with the zod `Expected object, received ...` type message. -/
theorem c5_workflowVars_amended (input : String) (pvKvs : List (String × Json))
    (j : Json) (svs : List (String × String)) (k : String) (n : Int)
    (h : jsTrim input ≠ "") :
    tryParseWorkflowVars input (.ok (.obj pvKvs))
      = .ok (some (pvKvs.map (fun kv => (kv.1, jsToString kv.2))))
    ∧ (isPlainObject j = false →
        tryParseWorkflowVars input (.ok j) = .err "Workflow variables must be a JSON object.")
    ∧ parseWorkflowVarsServer (some (.obj (svs.map (fun kv => (kv.1, Json.str kv.2)))))
      = .ok (some svs)
    ∧ parseWorkflowVarsServer (some (.obj [(k, Json.num n)]))
      = .error ["Expected string, received number"]
    ∧ (isPlainObject j = false →
        parseWorkflowVarsServer (some j) = .error [expectedMsg "object" j]) := by
  have h1 : (jsTrim input == "") = false := beq_eq_false_iff_ne.mpr h
  refine ⟨?_, ?_, parseWorkflowVarsServer_map svs, ?_, ?_⟩
  · simp [tryParseWorkflowVars, h1, isPlainObject]
  · intro hj
    cases j <;> simp_all [tryParseWorkflowVars, isPlainObject]
  · simp [parseWorkflowVarsServer, parseVarList, parseVarPair, exceptErrs, expectedMsg, typeName]
  · intro hj
    cases j <;> simp_all [parseWorkflowVarsServer, isPlainObject]

/-- C5 (witness): concrete instances — the client coerces `a: 1` and
rejects the array `[1]`; the server accepts the all-string object
`a: "b"`, rejects `a: 1` with a type error and rejects the array `[1]`
with the zod type message. -/
theorem c5_witness :
    tryParseWorkflowVars "x" (.ok (.obj [("a", .num 1)]))
      = .ok (some ([("a", .num 1)].map (fun kv => (kv.1, jsToString kv.2))))
    ∧ tryParseWorkflowVars "x" (.ok (.arr [.num 1]))
      = .err "Workflow variables must be a JSON object."
    ∧ parseWorkflowVarsServer (some (.obj [("a", Json.str "b")])) = .ok (some [("a", "b")])
    ∧ parseWorkflowVarsServer (some (.obj [("a", Json.num 1)]))
      = .error ["Expected string, received number"]
    ∧ parseWorkflowVarsServer (some (.arr [.num 1]))
      = .error [expectedMsg "object" (.arr [.num 1])] := by
  have h := c5_workflowVars_amended "x" [("a", .num 1)] (.arr [.num 1]) [("a", "b")] "a" 1
    (by decide)
  exact ⟨h.1, h.2.1 rfl, h.2.2.1, h.2.2.2.1, h.2.2.2.2 rfl⟩

/-- C9 (counterexample): an input whose recipients all match the digit
pattern and whose `workflowTag`/`message` are nonempty after trimming is
nevertheless REJECTED when `mediaUrl` holds a non-URL string (`new URL
("x")` throws, so `urlOk "x" = false`) — the claim that validation
succeeds for all such inputs is false, since it ignores the optional
fields. -/
theorem c9_trim_counterexample :
    isDigits615 (jsTrim "123456") = true
    ∧ jsTrim "t" ≠ ""
    ∧ jsTrim "m" ≠ ""
    ∧ inboundSafeParse (fun _ => false) (fun _ => false)
        (.obj [("workflowTag", .str "t"), ("recipients", .arr [.str "123456"]),
          ("message", .str "m"), ("mediaUrl", .str "x")])
      = .error ["Invalid url"]
    ∧ exceptIsOk (inboundSafeParse (fun _ => false) (fun _ => false)
        (.obj [("workflowTag", .str "t"), ("recipients", .arr [.str "123456"]),
          ("message", .str "m"), ("mediaUrl", .str "x")])) = false := by
  refine ⟨by decide, by decide, by decide, rfl, rfl⟩

/-- C9 (amended): when every recipient matches the digit pattern after
trimming, `workflowTag` and `message` are nonempty after trimming, AND
the optional fields are acceptable (`mediaUrl` absent or passing the URL
test, `workflowVars` absent or string-valued, `sendAt` absent or passing
the date refinement), server validation succeeds and the normalized
payload has `workflowTag`, each recipient and `message` trimmed, while
`mediaUrl`, `workflowVars` and `sendAt` are passed through unchanged —
in particular `mediaUrl` and `sendAt` are NOT trimmed. -/
theorem c9_trim_amended (urlOk dateOk : String → Bool)
    (tag msg : String) (rs : List String) (md : Option String)
    (vs : Option (List (String × String))) (sd : Option String)
    (htag : jsTrim tag ≠ "") (hmsg : jsTrim msg ≠ "")
    (hne : rs ≠ []) (hdig : ∀ r ∈ rs, isDigits615 (jsTrim r) = true)
    (hmd : ∀ u ∈ md, urlOk u = true)
    (hsd : sendAtRefineOk dateOk sd = true) :
    inboundSafeParse urlOk dateOk (Json.obj (bodyFields tag rs msg md vs sd))
      = .ok ⟨jsTrim tag, rs.map jsTrim, jsTrim msg, md, vs, sd⟩ :=
  inboundSafeParse_bodyFields urlOk dateOk tag msg rs md vs sd htag hmsg hne hdig hmd hsd

/-- C9 (witness): a concrete body with whitespace around `workflowTag`,
the recipient and `message`, an untrimmed-but-valid `sendAt` and a
`mediaUrl` passing the URL test: the output trims the three text fields
and passes `mediaUrl`/`sendAt` through verbatim. -/
theorem c9_witness :
    inboundSafeParse (fun s => s == "https://ok.example/a.pdf") (fun s => s == " 2024-01-01 ")
        (Json.obj (bodyFields " promo " [" 15551234567 "] " hi "
          (some "https://ok.example/a.pdf") (some [("a", "b")]) (some " 2024-01-01 ")))
      = .ok ⟨"promo", ["15551234567"], "hi", some "https://ok.example/a.pdf",
          some [("a", "b")], some " 2024-01-01 "⟩ :=
  c9_trim_amended (fun s => s == "https://ok.example/a.pdf") (fun s => s == " 2024-01-01 ")
    " promo " " hi " [" 15551234567 "] (some "https://ok.example/a.pdf")
    (some [("a", "b")]) (some " 2024-01-01 ")
    (by decide) (by decide) (by decide) (by decide) (by decide) (by decide)
